import Mathlib

/-!
# Verification of the EmailDuplicateCleaner duplicate-detection and cleanup engine

Shallow embedding of the engine of `email_duplicate_cleaner.py` and
`optimized_email_processor.py`:

* `compute_email_hash` — `DuplicateEmailFinder.compute_email_hash`;
* `scan_folder` — `DuplicateEmailFinder.scan_folder`;
* `delete_duplicates` — `DuplicateEmailFinder.delete_duplicates` (keep-first path);
* `compute_email_hash_fast`, `EmailHashCache.get_hash` / `set_hash`,
  `process_one` / `process_msgs` — the optimized processor's hash, SQLite
  cache and chunked scanner;
* `demoInboxMsgs` — the six-message demo Inbox built by `create_test_mailbox`.

Modelling conventions:

* MD5 (and the fast hasher) is modelled as an injective function of the byte
  stream fed to it (an ideal, collision-free hash): a digest is represented by
  the stream itself (`md5hex` is the identity on the stream).  Digest equality
  in the model coincides with equality of the bytes fed to the hasher, which is
  exactly what equality of real digests means up to MD5 collisions.
* Strings stand for Python byte strings; `encode('utf-8')` is the identity.
* Exceptions are modelled with `Except Unit` / `Option`: fallible operations
  return `.error ()` where the Python code raises.
* `email.utils.parsedate_to_datetime` is external library code; its outcome on
  a given `Date` header is carried on the message as a `DateVal` field
  (`unparseable`, or `parsed aware t` — `aware` records whether the resulting
  `datetime` carries timezone information, `t` its offset from `datetime.min`;
  real parsed dates are strictly later than `datetime.min`, encoded by `t + 1`
  in the sort key).  Python raises `TypeError` when a timezone-aware datetime
  is compared with a naive one (`datetime.min` is naive).
-/

namespace EmailDup

/-- Outcome of `email.utils.parsedate_to_datetime` on a raw `Date` header:
either the call raises (`unparseable`) or it returns a datetime, recorded as
its timezone-awareness plus an abstract timestamp. -/
inductive DateVal where
  | unparseable : DateVal
  | parsed (aware : Bool) (t : Nat) : DateVal
deriving DecidableEq, Repr

/-- One MIME part of a multipart message, as seen by `Message.walk()`:
`isText` is `get_content_maintype() == 'text'`; `payload` is
`get_payload(decode=True)` (`none` models the payload being undecodable, i.e.
feeding it to the hasher raises). -/
structure Part where
  isText : Bool
  payload : Option String
deriving DecidableEq, Repr

/-- An email message as the engine reads it: header values (`none` = header
absent), the parse outcome of the `Date` header, the body (single-part
`payload` or the `walk()` parts when multipart), and `fetchRaises`, which
models `mbox[key]` raising for a malformed store entry. -/
structure EmailMsg where
  messageId : Option String := none
  subject : Option String := none
  fromAddr : Option String := none
  toAddr : Option String := none
  cc : Option String := none
  bcc : Option String := none
  date : Option String := none
  dateParse : DateVal := .unparseable
  multipart : Bool := false
  parts : List Part := []
  body : Option String := some ""
  fetchRaises : Bool := false
deriving DecidableEq, Repr

/-- Model of `msg.get(header, '')`: a missing header is treated as the empty string. -/
def headerD (h : Option String) : String := h.getD ""

/-- MD5 modelled as an ideal (injective) hash: the digest is represented by
the byte stream fed to the hasher. -/
def md5hex (s : String) : String := s

/-- The three Message-IDs special-cased by `compute_email_hash` for demo
mode. -/
def demoIds : List String :=
  ["<team-meeting-duplicate@example.com>",
   "<company-picnic-duplicate@example.com>",
   "<weekly-report-duplicate@example.com>"]

/-- Body bytes fed to the hasher in the `strict` branch for a multipart
message: text parts in walk order; an undecodable part raises inside the
`try`, so feeding stops there (parts already fed are kept, the rest of the
body is skipped) and the exception is swallowed. -/
def strictBodyFeed : List Part → String
  | [] => ""
  | p :: ps =>
    if p.isText then
      match p.payload with
      | none => ""
      | some b => b ++ strictBodyFeed ps
    else strictBodyFeed ps

/-- Body bytes fed in the `strict` branch: multipart walk, or the single
payload (`get_payload(decode=True)`); a raising payload is swallowed by the
branch's `try`, feeding nothing. -/
def strictBody (m : EmailMsg) : String :=
  if m.multipart then strictBodyFeed m.parts else (m.body.getD "")

/-- Body bytes fed in the `content` branch for a multipart message.  This
branch has no `try`: an undecodable text part raises out of
`compute_email_hash` (`none`). -/
def contentBodyFeed : List Part → Option String
  | [] => some ""
  | p :: ps =>
    if p.isText then
      match p.payload with
      | none => none
      | some b => (contentBodyFeed ps).map (fun rest => b ++ rest)
    else contentBodyFeed ps

/-- Body bytes fed in the `content` branch (no exception handler). -/
def contentBody (m : EmailMsg) : Option String :=
  if m.multipart then contentBodyFeed m.parts else m.body

/-- Model of `DuplicateEmailFinder.compute_email_hash` (email_duplicate_cleaner.py
579-654).  Headers default to `''`; messages whose Message-ID is one of the
three demo identifiers hash to `md5(message_id)` regardless of `method`; the
dispatch is `subject-sender` / `headers` / `strict`, any other method string
falling through to the content-only branch, exactly as in the source.
`.error ()` models the uncaught exception of the content branch. -/
def compute_email_hash (msg : EmailMsg) (method : String) : Except Unit String :=
  let subject := headerD msg.subject
  let from_addr := headerD msg.fromAddr
  let date := headerD msg.date
  let message_id := headerD msg.messageId
  if message_id ∈ demoIds then
    .ok (md5hex message_id)
  else if method = "subject-sender" then
    .ok (md5hex (subject ++ "|" ++ from_addr))
  else if method = "headers" then
    .ok (md5hex (message_id ++ "|" ++ date ++ "|" ++ from_addr ++ "|" ++ subject))
  else if method = "strict" then
    .ok (md5hex ((message_id ++ "|" ++ date ++ "|" ++ from_addr ++ "|" ++ subject)
      ++ strictBody msg))
  else
    match contentBody msg with
    | none => .error ()
    | some b => .ok (md5hex b)

/-! ## Optimized processor (`optimized_email_processor.py`) -/

/-- Run-dependent ambient state read by `compute_email_hash_fast`:
`timeStr` models `str(time.time())`, `pyHashStr` models `str(hash(str(msg)))`
(salted per interpreter run), `now` models `time.time()` as stored in the
cache's `last_modified` column. -/
structure Env where
  timeStr : String := ""
  pyHashStr : String := ""
  now : Nat := 0
deriving DecidableEq, Repr

/-- Header bytes fed by `compute_email_hash_fast`: for each of the seven
header names present on the message, `name`, `': '`, the value and `'\r\n'`
are fed in order. -/
def fastHeaderFeed (m : EmailMsg) : String :=
  (([("Message-ID", m.messageId), ("Date", m.date), ("From", m.fromAddr),
     ("Subject", m.subject), ("To", m.toAddr), ("Cc", m.cc),
     ("Bcc", m.bcc)] : List (String × Option String)).map
    (fun p =>
      match p.2 with
      | none => ""
      | some v => p.1 ++ ": " ++ v ++ "\r\n")).foldl (fun a b => a ++ b) ""

/-- Multipart body bytes fed by `compute_email_hash_fast`: each text part's
payload when truthy; the per-part `try` swallows an undecodable part and the
walk continues with the next part. -/
def fastPartFeed : List Part → String
  | [] => ""
  | p :: ps =>
    (if p.isText then
      match p.payload with
      | none => ""
      | some b => b
     else "") ++ fastPartFeed ps

/-- Model of `compute_email_hash_fast` (optimized_email_processor.py 95-142).  The
fallback `message_id` built from `time.time()` and `hash(str(msg))` is bound
but never fed to the hasher, exactly as in the source.  The hasher object is
chosen from `hash_method` alone (xxh64 or `hashlib.new`), so the digest is
modelled by the fed stream. -/
def compute_email_hash_fast (env : Env) (msg : EmailMsg) (hash_method : String) : String :=
  let message_id := msg.messageId.getD (env.timeStr ++ env.pyHashStr)
  let _ := message_id
  let _ := hash_method
  md5hex (fastHeaderFeed msg ++
    (if msg.multipart then fastPartFeed msg.parts else msg.body.getD ""))

/-- One row of the `email_hashes` SQLite table. -/
structure CacheEntry where
  message_id : String
  message_hash : String
  source_file : String
  last_modified : Nat
  hash_method : String
deriving DecidableEq, Repr

/-- Model of `EmailHashCache` (optimized_email_processor.py 31-92): the SQLite table
with `PRIMARY KEY (message_id, source_file, hash_method)`.  The storage layer
is modelled as never failing (the `sqlite3.Error` handlers of the source
return `None` / do nothing; the claims below assume an error-free store). -/
structure EmailHashCache where
  entries : List CacheEntry := []
deriving DecidableEq, Repr

/-- Key-triple match for the composite primary key. -/
def keyMatch (e : CacheEntry) (message_id source_file hash_method : String) : Bool :=
  e.message_id == message_id && e.source_file == source_file
    && e.hash_method == hash_method

/-- Model of `EmailHashCache.get_hash`: SELECT by the key triple. -/
def get_hash (c : EmailHashCache) (message_id source_file hash_method : String) :
    Option String :=
  (c.entries.find? (fun e => keyMatch e message_id source_file hash_method)).map
    (fun e => e.message_hash)

/-- Model of `EmailHashCache.set_hash`: `INSERT OR REPLACE` on the key triple (last
write wins, one row per triple). -/
def set_hash (c : EmailHashCache) (message_id message_hash source_file hash_method : String)
    (now : Nat) : EmailHashCache :=
  ⟨⟨message_id, message_hash, source_file, now, hash_method⟩ ::
    c.entries.filter (fun e => !keyMatch e message_id source_file hash_method)⟩

/-- One record of a `ScanChunkResult` (the dict built by
`process_mailbox_chunk`; the display-only `size` field is omitted). -/
structure ChunkRec where
  key : Nat
  message_id : String
  hash : String
  subject : String
  fromAddr : String
  date : String
  cached : Bool
deriving DecidableEq, Repr

/-- Model of `msg.get('Subject', '(No Subject)')`. -/
def headerDSubject (em : EmailMsg) : String := em.subject.getD "(No Subject)"

/-- Model of `msg.get('From', '(No Sender)')`. -/
def headerDFrom (em : EmailMsg) : String := em.fromAddr.getD "(No Sender)"

/-- The message identifier used as cache key:
`msg.get('Message-ID', f'no-id-{i}-{j}')`. -/
def msgCacheId (em : EmailMsg) (i j : Nat) : String :=
  em.messageId.getD ("no-id-" ++ toString i ++ "-" ++ toString j)

/-- The per-message body of `process_mailbox_chunk`'s inner loop
(optimized_email_processor.py 175-207): fetch the message (`mbox[j]`; a raise
is caught, logged and the message skipped — `none`), derive `message_id` with
the `no-id-{i}-{j}` fallback, consult the cache, compute via
`compute_email_hash_fast` on a miss and write the result back before
returning. -/
def process_one (env : Env) (mbox_path hash_method : String) (cache : EmailHashCache)
    (i j : Nat) (em : EmailMsg) : Option ChunkRec × EmailHashCache :=
  if em.fetchRaises then (none, cache)
  else
    let message_id := msgCacheId em i j
    match get_hash cache message_id mbox_path hash_method with
    | some h =>
      (some ⟨j, message_id, h, headerDSubject em, headerDFrom em, headerD em.date, true⟩,
        cache)
    | none =>
      let h := compute_email_hash_fast env em hash_method
      (some ⟨j, message_id, h, headerDSubject em, headerDFrom em, headerD em.date, false⟩,
        set_hash cache message_id h mbox_path hash_method env.now)

/-- A chunk's messages processed in order (`for j in range(i, chunk_end)`),
threading the cache; each message carries its absolute index `j`. -/
def process_msgs (env : Env) (mbox_path hash_method : String) (i : Nat) :
    EmailHashCache → List (Nat × EmailMsg) → List ChunkRec × EmailHashCache
  | c, [] => ([], c)
  | c, (j, em) :: rest =>
    match process_one env mbox_path hash_method c i j em with
    | (none, c') => process_msgs env mbox_path hash_method i c' rest
    | (some r, c') =>
      let (rs, c'') := process_msgs env mbox_path hash_method i c' rest
      (r :: rs, c'')

/-! ## Mailbox scanner (`DuplicateEmailFinder.scan_folder`) -/

/-- The per-message dict built by `scan_folder` (the `message` object itself
is kept only for preview and is not needed by the claims; `dateParse` carries
the `parsedate_to_datetime` outcome for the `Date` string). -/
structure MsgRec where
  key : Nat
  subject : String
  fromAddr : String
  date : String
  dateParse : DateVal
  folder : String
deriving DecidableEq, Repr

/-- The `parsed_date` sort key of `scan_folder`: `datetime.min` — naive,
encoded `(false, 0)` — when the `Date` string is empty or fails to parse,
otherwise the parsed datetime `(aware, t + 1)` (real parsed dates are
strictly later than `datetime.min`). -/
def dateKey (r : MsgRec) : Bool × Nat :=
  if r.date = "" then (false, 0)
  else
    match r.dateParse with
    | .unparseable => (false, 0)
    | .parsed aware t => (aware, t + 1)

/-- Timezone-awareness of the sort key: comparing an aware datetime with a
naive one raises `TypeError` in Python. -/
def keyKind (r : MsgRec) : Bool := (dateKey r).1

/-- Numeric part of the sort key (comparison within one kind). -/
def natKey (r : MsgRec) : Nat := (dateKey r).2

/-- The stable ascending comparison used by `messages.sort(key=...)`. -/
def natKeyLe (a b : MsgRec) : Prop := natKey a ≤ natKey b

instance : DecidableRel natKeyLe := fun a b => Nat.decLe (natKey a) (natKey b)

instance : IsTotal MsgRec natKeyLe := ⟨fun a b => Nat.le_total (natKey a) (natKey b)⟩

instance : IsTrans MsgRec natKeyLe := ⟨fun _ _ _ => Nat.le_trans⟩

/-- Python's `list.sort` on comparable keys: a stable ascending sort
(Mathlib's `insertionSort` with a `≤` comparison is stable). -/
def pySort (l : List MsgRec) : List MsgRec := List.insertionSort natKeyLe l

/-- Length of the longest front run of messages whose key has the same
timezone-awareness as the first message: the index of the first element whose
comparison against the already-sorted prefix would raise `TypeError`. -/
def kindRun (msgs : List MsgRec) : Nat :=
  match msgs with
  | [] => 0
  | a :: _ => (msgs.takeWhile (fun b => keyKind b == keyKind a)).length

/-- Nondecreasing list of keys (a CPython ascending run). -/
def nondecr : List Nat → Bool
  | [] => true
  | [_] => true
  | a :: b :: rest => a ≤ b && nondecr (b :: rest)

/-- Strictly decreasing list of keys (a CPython descending run). -/
def strictdecr : List Nat → Bool
  | [] => true
  | [_] => true
  | a :: b :: rest => b < a && strictdecr (b :: rest)

/-- Whether the first keys up to and including the first mixed-kind element
form a single CPython run (nondecreasing, or strictly decreasing): in that
case the raising comparison happens inside `count_run`, before any element is
moved. -/
def frontRunHolds (l : List Nat) : Bool :=
  nondecr l || strictdecr l

/-- Model of `messages.sort(key=lambda x: x['parsed_date'])` wrapped in
`try ... except Exception: pass` (email_duplicate_cleaner.py 722-748).  When
every key has the same timezone-awareness the sort succeeds and is the stable
ascending sort.  When kinds are mixed, the first comparison between an aware
and a naive key raises `TypeError`, which the `except` swallows, leaving the
list in the state CPython's sort had reached: for lists shorter than 64
elements (CPython's binary-insertion regime — duplicate groups are far
smaller) that state is exactly the original list when the raise happens
during initial-run detection, and otherwise the stably sorted prefix before
the first mixed-kind element followed by the untouched remainder.  No theorem
below depends on the mixed-kind branch for groups longer than two. -/
def sortMessages (msgs : List MsgRec) : List MsgRec :=
  if kindRun msgs = msgs.length then pySort msgs
  else if frontRunHolds ((msgs.take (kindRun msgs + 1)).map natKey) then msgs
  else pySort (msgs.take (kindRun msgs)) ++ msgs.drop (kindRun msgs)

/-- A mail folder descriptor (`folder_info`). -/
structure Folder where
  path : String
  display_name : String
deriving DecidableEq, Repr

/-- A linear mailbox store: messages in `mbox.keys()` order, each with its
store key; `openRaises` models `mailbox.mbox(path)` (or the iteration set-up)
raising. -/
structure Mbox where
  msgs : List (Nat × EmailMsg) := []
  openRaises : Bool := false
deriving DecidableEq, Repr

/-- Keys currently present in the store. -/
def Mbox.keys (m : Mbox) : List Nat := m.msgs.map Prod.fst

/-- Model of `key in mbox`. -/
def Mbox.hasKey (m : Mbox) (k : Nat) : Bool := decide (k ∈ m.keys)

/-- Model of `del mbox[key]`. -/
def Mbox.delKey (m : Mbox) (k : Nat) : Mbox :=
  ⟨m.msgs.filter (fun p => decide (p.1 ≠ k)), m.openRaises⟩

/-- A duplicate group dict: digest, member list, `count = len(messages)`. -/
structure Group where
  hash : String
  messages : List MsgRec
  count : Nat
deriving DecidableEq, Repr

/-- The scanner/cleaner object state: `self.duplicate_groups` and
`self.current_folder`. -/
structure Finder where
  duplicate_groups : List Group := []
  current_folder : Option Folder := none
deriving DecidableEq, Repr

/-- Model of `defaultdict(list)` keyed by digest: append `r` to the bucket of `h`,
preserving first-insertion order of the keys (Python dicts iterate in
insertion order). -/
def bucketAdd (m : List (String × List MsgRec)) (h : String) (r : MsgRec) :
    List (String × List MsgRec) :=
  match m with
  | [] => [(h, [r])]
  | (h', rs) :: rest =>
    if h' = h then (h', rs ++ [r]) :: rest else (h', rs) :: bucketAdd rest h r

/-- The scan loop of `scan_folder`: fetch each message (`mbox[msg_key]`),
hash it, and append its record to the digest's bucket.  There is no
per-message `try` in `scan_folder`: a raising fetch or an uncaught hashing
exception propagates (`.error ()`) to the folder-level handler. -/
def buildMap (dname hash_method : String) :
    List (String × List MsgRec) → List (Nat × EmailMsg) →
    Except Unit (List (String × List MsgRec))
  | acc, [] => .ok acc
  | acc, (k, em) :: rest =>
    if em.fetchRaises then .error ()
    else
      match compute_email_hash em hash_method with
      | .error _ => .error ()
      | .ok h =>
        buildMap dname hash_method
          (bucketAdd acc h
            ⟨k, headerDSubject em, headerDFrom em, headerD em.date, em.dateParse, dname⟩)
          rest

/-- Stable descending sort of the groups by `count`
(`duplicate_groups.sort(key=lambda x: x['count'], reverse=True)`). -/
def sortGroupsByCount (gs : List Group) : List Group :=
  List.insertionSort (fun x y : Group => y.count ≤ x.count) gs

/-- Model of `DuplicateEmailFinder.scan_folder` (email_duplicate_cleaner.py 656-756):
sets `current_folder`, iterates the store hashing every message, keeps the
buckets with more than one member, sorts each kept bucket by parsed date
(`sortMessages`), sorts groups by descending size, stores and returns them.
Any exception in the loop is caught at folder level: the function returns
`[]` and `duplicate_groups` keeps its previous value (while `current_folder`
has already been updated), as in the source. -/
def scan_folder (finder : Finder) (folder_info : Folder) (store : Mbox)
    (hash_method : String) : Finder × List Group :=
  let finder1 : Finder := ⟨finder.duplicate_groups, some folder_info⟩
  if store.openRaises then (finder1, [])
  else
    match buildMap folder_info.display_name hash_method [] store.msgs with
    | .error _ => (finder1, [])
    | .ok m =>
      let dups := (m.filter (fun p => decide (1 < p.2.length))).map
        (fun p =>
          let ms := sortMessages p.2
          (⟨p.1, ms, ms.length⟩ : Group))
      let duplicate_groups := sortGroupsByCount dups
      (⟨duplicate_groups, some folder_info⟩, duplicate_groups)

/-! ## Cleanup engine (`DuplicateEmailFinder.delete_duplicates`) -/

/-- Result of one `delete_duplicates` call: the returned pair plus two
observables of the model — whether `mailbox.mbox(path)` was invoked at all
(`opened`) and the store's contents afterwards. -/
structure DeleteOut where
  deleted_count : Nat
  errors : List String
  opened : Bool
  store : Mbox
deriving DecidableEq, Repr

/-- The inner deletion loop over one list of keys: `del mbox[key]` succeeds
when the key is present (incrementing `deleted_count`), and raising
(`KeyError` for an already-absent key, or any store-level I/O error) is
caught, appending one error string, and the loop continues. -/
def deleteKeys : Mbox → List Nat → Nat × List String × Mbox
  | m, [] => (0, [], m)
  | m, k :: ks =>
    if m.hasKey k then
      let (n, es, m') := deleteKeys (m.delKey k) ks
      (n + 1, es, m')
    else
      let (n, es, m') := deleteKeys m ks
      (n, ("Error deleting message " ++ toString k ++ ": KeyError") :: es, m')

/-- The deletion keys of one group under keep-first: every member except
index 0. -/
def groupDeletionKeys (g : Group) : List Nat := (g.messages.drop 1).map (fun r => r.key)

/-- Model of `DuplicateEmailFinder.delete_duplicates` (email_duplicate_cleaner.py
921-1081), keep-first path (`selection_method='keep-first'`; the interactive
branch only reads console prompts to pick `keep_idx` and is not modelled —
every claim concerns keep-first, for which `keep_idx = 0` and
`confirm = True`).  Steps, as in the source: empty-group early return;
index validation collecting one error per out-of-range index; early return
when no index is valid; `mailbox.mbox(current_folder['path'])` inside a
`try` whose handler returns `(0, [one error])` — discarding any invalid-index
errors — or, when `current_folder` is `None`, raises again inside the
handler (`.error ()`, the unhandled `TypeError`); then per selected group the
members other than the first are deleted with per-key error recovery, and the
store is flushed once. -/
def delete_duplicates (finder : Finder) (store : Mbox) (group_indices : List Int) :
    Except Unit DeleteOut :=
  if finder.duplicate_groups.isEmpty then
    .ok ⟨0, ["No duplicates to delete"], false, store⟩
  else
    let len : Int := finder.duplicate_groups.length
    let valid := group_indices.filter (fun i => decide (0 ≤ i ∧ i < len))
    let errors0 := (group_indices.filter (fun i => !decide (0 ≤ i ∧ i < len))).map
      (fun i => "Invalid group index: " ++ toString i)
    if valid.isEmpty then .ok ⟨0, errors0, false, store⟩
    else
      match finder.current_folder with
      | none => .error ()
      | some f =>
        if store.openRaises then
          .ok ⟨0, ["Error opening mailbox " ++ f.display_name], true, store⟩
        else
          let deletionKeys :=
            (valid.map (fun i =>
              groupDeletionKeys (finder.duplicate_groups.getD i.toNat ⟨"", [], 0⟩))).foldl
              (fun a b => a ++ b) []
          let (n, es, m') := deleteKeys store deletionKeys
          .ok ⟨n, errors0 ++ es, true, m'⟩

/-! ## The demo mailbox (`create_test_mailbox`) -/

/-- One demo Inbox message: `EmailMessage` with the five headers set and a
single text/plain body (`set_content` appends a newline). -/
def demoMsg (mid subj from_ to_ dateS : String) (t : Nat) (bodyS : String) : EmailMsg :=
  { messageId := some mid, subject := some subj, fromAddr := some from_,
    toAddr := some to_, date := some dateS, dateParse := .parsed true t,
    multipart := false, parts := [], body := some (bodyS ++ "\n"),
    fetchRaises := false }

/-- The six messages `create_test_mailbox` adds to the demo Inbox
(email_duplicate_cleaner.py 1082-1175): messages 0-1 share the team-meeting
demo Message-ID, messages 2-4 the company-picnic one; the sixth gets a
synthesized id from Python's `hash()`, modelled as a fixed fresh identifier
(distinct from the demo identifiers; its exact value is irrelevant to every
statement below).  All `Date` headers carry a `-0400` offset, so they parse
to timezone-aware datetimes; timestamps increase in the listed order. -/
def demoInboxMsgs : List (Nat × EmailMsg) :=
  [(0, demoMsg "<team-meeting-duplicate@example.com>" "Team Meeting Tomorrow"
      "boss@example.com" "you@example.com" "Mon, 01 Apr 2025 10:00:00 -0400" 1000
      "Let\x27s meet tomorrow at 10 AM to discuss the project progress."),
   (1, demoMsg "<team-meeting-duplicate@example.com>" "Team Meeting Tomorrow"
      "boss@example.com" "you@example.com" "Mon, 01 Apr 2025 10:05:00 -0400" 1005
      "Let\x27s meet tomorrow at 10 AM to discuss the project progress."),
   (2, demoMsg "<company-picnic-duplicate@example.com>" "Invitation: Company Picnic"
      "events@example.com" "all-staff@example.com" "Tue, 02 Apr 2025 09:30:00 -0400" 2030
      "You\x27re invited to our annual company picnic this Saturday."),
   (3, demoMsg "<company-picnic-duplicate@example.com>" "Invitation: Company Picnic"
      "events@example.com" "all-staff@example.com" "Tue, 02 Apr 2025 09:35:00 -0400" 2035
      "You\x27re invited to our annual company picnic this Saturday."),
   (4, demoMsg "<company-picnic-duplicate@example.com>" "Invitation: Company Picnic"
      "events@example.com" "all-staff@example.com" "Tue, 02 Apr 2025 09:40:00 -0400" 2040
      "You\x27re invited to our annual company picnic this Saturday."),
   (5, demoMsg "<8212199411254441787@example.com>" "Weekly Report Due"
      "manager@example.com" "you@example.com" "Wed, 03 Apr 2025 16:15:00 -0400" 3015
      "Please submit your weekly report by EOD tomorrow.")]

/-- The demo Inbox store. -/
def demoInbox : Mbox := ⟨demoInboxMsgs, false⟩

/-- The demo Inbox folder descriptor. -/
def demoFolder : Folder := ⟨"Inbox", "Inbox"⟩

/-- Σ (group size − 1): the `total_redundant_messages` aggregate. -/
def totalRedundant (gs : List Group) : Nat := (gs.map (fun g => g.count - 1)).sum

/-- All members' sort keys share one timezone-awareness kind, so every
comparison Python's sort performs is defined (no `TypeError`). -/
def SameKind (l : List MsgRec) : Prop := ∀ a ∈ l, ∀ b ∈ l, keyKind a = keyKind b

instance (l : List MsgRec) : Decidable (SameKind l) := by
  unfold SameKind; infer_instance

/-! ## Concrete instances used in counterexamples and witnesses -/

/-- A well-formed message carrying the team-meeting demo Message-ID. -/
def msgDupA : EmailMsg :=
  { messageId := some "<team-meeting-duplicate@example.com>", subject := some "s",
    fromAddr := some "f", date := some "Mon, 01 Apr 2025 10:00:00 -0400",
    dateParse := .parsed true 100, body := some "x" }

/-- A second copy (later date) with the same demo Message-ID. -/
def msgDupB : EmailMsg :=
  { messageId := some "<team-meeting-duplicate@example.com>", subject := some "s",
    fromAddr := some "f", date := some "Mon, 01 Apr 2025 10:05:00 -0400",
    dateParse := .parsed true 105, body := some "x" }

/-- A malformed store entry: `mbox[key]` raises for it. -/
def msgBad : EmailMsg := { fetchRaises := true }

/-- Two messages sharing the picnic demo Message-ID whose dates mix a
timezone-aware parse with an unparseable one: the first has an aware parsed
date, the second's `Date` header does not parse (so its sort key is
`datetime.min`, which is naive). -/
def mixMsgA : EmailMsg :=
  { messageId := some "<company-picnic-duplicate@example.com>", subject := some "s",
    fromAddr := some "f", date := some "Tue, 02 Apr 2025 09:30:00 -0400",
    dateParse := .parsed true 230, body := some "x" }

/-- See `mixMsgA`: same digest, unparseable date. -/
def mixMsgB : EmailMsg :=
  { messageId := some "<company-picnic-duplicate@example.com>", subject := some "s",
    fromAddr := some "f", date := some "not a parseable date",
    dateParse := .unparseable, body := some "x" }

/-- Store holding `mixMsgA` then `mixMsgB`, in that scan order. -/
def mixStore : Mbox := ⟨[(0, mixMsgA), (1, mixMsgB)], false⟩

/-- Folder descriptor for the mixed-date store. -/
def mixFolder : Folder := ⟨"mixpath", "Mixed"⟩

/-- Demo-ID message, body variant one (for C4). -/
def c4DemoA : EmailMsg :=
  { messageId := some "<team-meeting-duplicate@example.com>", subject := some "S",
    fromAddr := some "F", date := some "D", body := some "body one" }

/-- Demo-ID message identical to `c4DemoA` in every header, body variant
two. -/
def c4DemoB : EmailMsg :=
  { messageId := some "<team-meeting-duplicate@example.com>", subject := some "S",
    fromAddr := some "F", date := some "D", body := some "body two" }

/-- Multipart message with a text part and a non-text attachment (for C4):
only the text part is fed to the digest. -/
def c4PartA : EmailMsg :=
  { messageId := some "<id@x>", subject := some "S", fromAddr := some "F",
    date := some "D", multipart := true,
    parts := [⟨true, some "T"⟩, ⟨false, some "attachment-1"⟩], body := some "" }

/-- Identical to `c4PartA` except for the bytes of the non-text
attachment. -/
def c4PartB : EmailMsg :=
  { messageId := some "<id@x>", subject := some "S", fromAddr := some "F",
    date := some "D", multipart := true,
    parts := [⟨true, some "T"⟩, ⟨false, some "attachment-2"⟩], body := some "" }

/-- Non-demo message, body variant one (for the C4 witness). -/
def c4W1 : EmailMsg :=
  { messageId := some "<w@x>", subject := some "S", fromAddr := some "F",
    date := some "D", body := some "body A" }

/-- Identical to `c4W1` in every header, body variant two. -/
def c4W2 : EmailMsg :=
  { messageId := some "<w@x>", subject := some "S", fromAddr := some "F",
    date := some "D", body := some "body B" }

/-- A scan record with a later timezone-aware date, scanned first. -/
def recW1 : MsgRec := ⟨0, "s", "f", "d1", .parsed true 5, "F"⟩

/-- A scan record with an earlier timezone-aware date, scanned second. -/
def recW2 : MsgRec := ⟨1, "s", "f", "d2", .parsed true 3, "F"⟩

/-! ## Helper lemmas (shared) -/

open List

theorem pySort_perm (l : List MsgRec) : pySort l ~ l :=
  List.perm_insertionSort natKeyLe l

theorem pySort_sorted (l : List MsgRec) : List.Sorted natKeyLe (pySort l) :=
  List.sorted_insertionSort natKeyLe l

/-- Stability of the Python sort, as filter-preservation: restricted to any
set of mutually tied elements, the sorted list keeps the original order. -/
theorem pySort_filter_stable (p : MsgRec → Bool)
    (hp : ∀ a b : MsgRec, p a = true → p b = true → natKeyLe a b) (l : List MsgRec) :
    (pySort l).filter p = l.filter p := by
  have hpair : (l.filter p).Pairwise natKeyLe :=
    List.pairwise_of_forall_mem_list (fun a ha b hb =>
      hp a b (List.of_mem_filter ha) (List.of_mem_filter hb))
  have hsub : l.filter p <+ pySort l :=
    List.sublist_insertionSort hpair (List.filter_sublist l)
  have hsub2 : (l.filter p).filter p <+ (pySort l).filter p := hsub.filter p
  rw [List.filter_filter] at hsub2
  have hidem : (fun a => p a && p a) = p := by
    funext a; cases p a <;> rfl
  rw [hidem] at hsub2
  have hlen : ((pySort l).filter p).length = (l.filter p).length :=
    ((pySort_perm l).filter p).length_eq
  exact (hsub2.eq_of_length hlen.symm).symm

theorem kindRun_eq_length {l : List MsgRec} (h : SameKind l) : kindRun l = l.length := by
  cases l with
  | nil => rfl
  | cons a t =>
    show ((a :: t).takeWhile (fun b => keyKind b == keyKind a)).length = (a :: t).length
    rw [List.takeWhile_eq_self_iff.mpr]
    intro x hx
    exact beq_iff_eq.mpr (h x hx a (List.mem_cons_self a t))

theorem sortMessages_eq_pySort {l : List MsgRec} (h : SameKind l) :
    sortMessages l = pySort l := by
  unfold sortMessages
  rw [kindRun_eq_length h]
  simp

theorem sortMessages_perm (l : List MsgRec) : sortMessages l ~ l := by
  unfold sortMessages
  by_cases h1 : kindRun l = l.length
  · rw [if_pos h1]; exact pySort_perm l
  · rw [if_neg h1]
    by_cases h2 : frontRunHolds ((l.take (kindRun l + 1)).map natKey) = true
    · rw [if_pos h2]
    · rw [if_neg h2]
      calc pySort (l.take (kindRun l)) ++ l.drop (kindRun l)
          ~ l.take (kindRun l) ++ l.drop (kindRun l) :=
            (pySort_perm (l.take (kindRun l))).append_right _
        _ = l := List.take_append_drop _ l

theorem sortMessages_length (l : List MsgRec) : (sortMessages l).length = l.length :=
  (sortMessages_perm l).length_eq

/-- The predicate `SameKind` is invariant under permutation. -/
theorem SameKind.of_perm {l l' : List MsgRec} (hp : l ~ l') (h : SameKind l') :
    SameKind l := fun a ha b hb => h a (hp.mem_iff.mp ha) b (hp.mem_iff.mp hb)

/-- Every group returned by `scan_folder` is a date-sorted bucket of at least
two messages, with `count` its length. -/
theorem scan_group_shape {finder : Finder} {fo : Folder} {store : Mbox} {meth : String}
    {g : Group} (hg : g ∈ (scan_folder finder fo store meth).2) :
    ∃ ms : List MsgRec,
      g.messages = sortMessages ms ∧ g.count = g.messages.length ∧ 1 < ms.length := by
  unfold scan_folder at hg
  by_cases ho : store.openRaises = true
  · simp [ho] at hg
  · simp only [Bool.not_eq_true] at ho
    simp only [ho, Bool.false_eq_true, if_false] at hg
    cases hb : buildMap fo.display_name meth [] store.msgs with
    | error e => rw [hb] at hg; simp at hg
    | ok m =>
      rw [hb] at hg
      simp only at hg
      have hmem := (List.perm_insertionSort (fun x y : Group => y.count ≤ x.count) _).mem_iff.mp hg
      rw [List.mem_map] at hmem
      obtain ⟨p, hpmem, hpeq⟩ := hmem
      refine ⟨p.2, ?_, ?_, ?_⟩
      · rw [← hpeq]
      · rw [← hpeq]
      · have := List.of_mem_filter hpmem
        exact of_decide_eq_true this

theorem foldl_append_length {α : Type} :
    ∀ (L : List (List α)) (acc : List α),
      (L.foldl (fun a b => a ++ b) acc).length = acc.length + (L.map List.length).sum
  | [], acc => by simp
  | l :: L, acc => by
    simp only [List.foldl_cons, List.map_cons, List.sum_cons,
      foldl_append_length L (acc ++ l), List.length_append]
    omega

/-- Deleting a present key keeps every other present key present. -/
theorem hasKey_delKey {m : Mbox} {k k' : Nat} (hne : k' ≠ k)
    (h : m.hasKey k' = true) : (m.delKey k).hasKey k' = true := by
  unfold Mbox.hasKey Mbox.keys at h ⊢
  rw [decide_eq_true_eq] at h ⊢
  obtain ⟨p, hpmem, hpk⟩ := List.mem_map.mp h
  exact List.mem_map.mpr ⟨p, List.mem_filter.mpr ⟨hpmem, by simp [hpk, hne]⟩, hpk⟩

/-- Deleting a list of distinct, present keys succeeds throughout: it deletes
one message per key, reports no errors, and removes exactly those keys. -/
theorem deleteKeys_all_present :
    ∀ (ks : List Nat) (m : Mbox), ks.Nodup → (∀ k ∈ ks, m.hasKey k = true) →
      deleteKeys m ks =
        (ks.length, [],
          ⟨m.msgs.filter (fun p => !(decide (p.1 ∈ ks))), m.openRaises⟩)
  | [], m => by
    intro _ _
    have hfun : (fun p : Nat × EmailMsg => !(decide (p.1 ∈ ([] : List Nat)))) =
        fun _ => true := by
      funext p; simp
    simp [deleteKeys, hfun]
  | k :: ks, m => by
    intro hnd hp
    have hk : m.hasKey k = true := hp k (List.mem_cons_self k ks)
    have hnotmem : k ∉ ks := (List.nodup_cons.mp hnd).1
    have ih := deleteKeys_all_present ks (m.delKey k) (List.nodup_cons.mp hnd).2
      (fun k' hk' => hasKey_delKey
        (fun he => hnotmem (he ▸ hk')) (hp k' (List.mem_cons_of_mem k hk')))
    simp only [deleteKeys, hk, if_true, ih]
    refine Prod.mk.injEq _ _ _ _ ▸ ⟨rfl, ?_⟩
    refine Prod.mk.injEq _ _ _ _ ▸ ⟨rfl, ?_⟩
    show (⟨(m.delKey k).msgs.filter _, (m.delKey k).openRaises⟩ : Mbox) = _
    unfold Mbox.delKey
    rw [List.filter_filter]
    have hfun : (fun p : Nat × EmailMsg =>
        !(decide (p.1 ∈ ks)) && decide (p.1 ≠ k)) =
        fun p => !(decide (p.1 ∈ k :: ks)) := by
      funext p
      by_cases h1 : p.1 = k <;> by_cases h2 : p.1 ∈ ks <;> simp [h1, h2]
    rw [hfun]

/-- A scan that returned any groups took the success path: the finder state
holds exactly those groups with the scanned folder current, and the store
opened without raising. -/
theorem scan_success {finder f1 : Finder} {fo : Folder} {store : Mbox} {meth : String}
    {groups : List Group}
    (hscan : scan_folder finder fo store meth = (f1, groups))
    (hne : groups ≠ []) :
    f1 = ⟨groups, some fo⟩ ∧ store.openRaises = false := by
  simp only [scan_folder] at hscan
  by_cases ho : store.openRaises = true
  · rw [if_pos ho] at hscan
    rw [Prod.mk.injEq] at hscan
    exact absurd hscan.2.symm hne
  · simp only [Bool.not_eq_true] at ho
    rw [ho] at hscan
    simp only [Bool.false_eq_true, if_false] at hscan
    cases hb : buildMap fo.display_name meth [] store.msgs with
    | error e =>
      simp only [hb] at hscan
      rw [Prod.mk.injEq] at hscan
      exact absurd hscan.2.symm hne
    | ok mm =>
      simp only [hb] at hscan
      rw [Prod.mk.injEq] at hscan
      obtain ⟨h1, h2⟩ := hscan
      refine ⟨?_, ho⟩
      rw [← h1, h2]

/-! ## Claim theorems -/

/-- C3: for every email message and every hash method, computing the digest
twice on the same input with the same method yields the same digest: both
digest functions are pure.  `compute_email_hash` reads nothing but the
message's fields; `compute_email_hash_fast` reads the clock and the salted
`hash()` (the `Env`), but only for the unused fallback `message_id`, so its
digest is independent of the run environment. -/
theorem C3_hash_purity :
    (∀ (e1 e2 : Env) (msg : EmailMsg) (meth : String),
      compute_email_hash_fast e1 msg meth = compute_email_hash_fast e2 msg meth) ∧
    (∀ (msg : EmailMsg) (meth : String),
      compute_email_hash msg meth = compute_email_hash msg meth) :=
  ⟨fun _ _ _ _ => rfl, fun _ _ => rfl⟩

/-- C9: a message whose Message-ID is one of the three demo identifiers
hashes to `md5(message_id)` under every method, independent of its other
headers and of its body. -/
theorem C9_demo_id_hash (msg : EmailMsg) (meth : String) (d : String)
    (hd : msg.messageId = some d) (hdemo : d ∈ demoIds) :
    compute_email_hash msg meth = .ok (md5hex d) := by
  have hh : headerD msg.messageId = d := by rw [hd]; rfl
  simp only [compute_email_hash, hh]
  rw [if_pos hdemo]

/-- Witness for C9 at a concrete message: the demo Message-ID digest under
the `content` method ignores the body. -/
theorem C9_demo_id_hash_witness :
    compute_email_hash
      { messageId := some "<team-meeting-duplicate@example.com>",
        subject := some "anything", body := some "body bytes" } "content" =
      .ok (md5hex "<team-meeting-duplicate@example.com>") :=
  C9_demo_id_hash _ "content" _ rfl (by decide)

/-- C10: with no duplicate groups, `delete_duplicates` returns
`(0, ["No duplicates to delete"])`; with groups present but every requested
index out of range it returns `deleted_count = 0` with exactly one error per
invalid index — in both cases without opening or mutating the store. -/
theorem C10_delete_early_returns (finder : Finder) (store : Mbox) (idxs : List Int) :
    (finder.duplicate_groups = [] →
      delete_duplicates finder store idxs =
        .ok ⟨0, ["No duplicates to delete"], false, store⟩) ∧
    (finder.duplicate_groups ≠ [] →
      (∀ i ∈ idxs, ¬(0 ≤ i ∧ i < (finder.duplicate_groups.length : Int))) →
      delete_duplicates finder store idxs =
        .ok ⟨0, idxs.map (fun i => "Invalid group index: " ++ toString i),
          false, store⟩) := by
  constructor
  · intro h
    unfold delete_duplicates
    rw [if_pos (by simp [h])]
  · intro hne hv
    have hfil : idxs.filter
        (fun i => decide (0 ≤ i ∧ i < (finder.duplicate_groups.length : Int))) = [] :=
      List.filter_eq_nil_iff.mpr (fun i hi => by
        simp only [decide_eq_true_eq]
        exact hv i hi)
    have hfil2 : idxs.filter
        (fun i => !decide (0 ≤ i ∧ i < (finder.duplicate_groups.length : Int))) = idxs :=
      List.filter_eq_self.mpr (fun i hi => by
        simp only [Bool.not_eq_true', decide_eq_false_iff_not]
        exact hv i hi)
    simp only [delete_duplicates]
    rw [if_neg (by simp [hne])]
    rw [hfil, hfil2]
    rfl

/-- Witness for C10 at concrete inputs: an empty group list, and a nonempty
one with only out-of-range indices. -/
theorem C10_delete_early_returns_witness :
    (delete_duplicates ⟨[], none⟩ ⟨[], false⟩ [0] =
      .ok ⟨0, ["No duplicates to delete"], false, ⟨[], false⟩⟩) ∧
    (delete_duplicates ⟨[⟨"h", [], 2⟩], none⟩ ⟨[], false⟩ [5, -1] =
      .ok ⟨0, ["Invalid group index: 5", "Invalid group index: -1"], false,
        ⟨[], false⟩⟩) :=
  ⟨(C10_delete_early_returns ⟨[], none⟩ ⟨[], false⟩ [0]).1 rfl,
    by
      have h := (C10_delete_early_returns ⟨[⟨"h", [], 2⟩], none⟩ ⟨[], false⟩ [5, -1]).2
        (by decide) (by decide)
      simpa using h⟩

/-- C8: when the store cannot be opened at the start of a deletion batch
(`mailbox.mbox` raises), `delete_duplicates` returns 0 deletions and exactly
one descriptive error, leaves the store unchanged, and propagates no
exception (`.ok`, not `.error`).  Requires a current folder to be set, which
is the case whenever a scan has produced the nonempty group list. -/
theorem C8_open_failure_single_error (finder : Finder) (store : Mbox) (idxs : List Int)
    (f : Folder) (hf : finder.current_folder = some f)
    (hne : finder.duplicate_groups ≠ [])
    (hvalid : ∃ i ∈ idxs, 0 ≤ i ∧ i < (finder.duplicate_groups.length : Int))
    (ho : store.openRaises = true) :
    delete_duplicates finder store idxs =
      .ok ⟨0, ["Error opening mailbox " ++ f.display_name], true, store⟩ := by
  obtain ⟨i, hi, hcond⟩ := hvalid
  have hmem : i ∈ idxs.filter
      (fun i => decide (0 ≤ i ∧ i < (finder.duplicate_groups.length : Int))) :=
    List.mem_filter.mpr ⟨hi, by simpa using hcond⟩
  simp only [delete_duplicates]
  rw [if_neg (by simp [hne])]
  rw [if_neg (by
    intro hempty
    rw [List.isEmpty_iff] at hempty
    rw [hempty] at hmem
    exact absurd hmem (List.not_mem_nil i))]
  rw [hf]
  simp only [ho, if_true]

/-- Witness for C8 at a concrete finder and store whose open raises. -/
theorem C8_open_failure_single_error_witness :
    delete_duplicates ⟨[⟨"h", [], 2⟩], some ⟨"p", "Inbox"⟩⟩ ⟨[], true⟩ [0] =
      .ok ⟨0, ["Error opening mailbox Inbox"], true, ⟨[], true⟩⟩ :=
  C8_open_failure_single_error ⟨[⟨"h", [], 2⟩], some ⟨"p", "Inbox"⟩⟩ ⟨[], true⟩ [0]
    ⟨"p", "Inbox"⟩ rfl (by decide) ⟨0, by decide, by decide⟩ rfl

/-- After `set_hash`, looking the key triple up returns the stored digest. -/
theorem get_hash_set_hash (c : EmailHashCache) (mid h src mth : String) (t : Nat) :
    get_hash (set_hash c mid h src mth t) mid src mth = some h := by
  simp [get_hash, set_hash, keyMatch, List.find?]

/-- C7: hashing the same `(message_id, source_file, hash_method)` triple twice
without an intervening cache clear yields the same digest; the second
computation is serviced from the cache (`cached = true`, the cache and digest
unchanged, the Hash Engine not invoked); and a resolved miss is written back
(`get_hash` finds it) in the very step that produced it, i.e. in the cache
state `process_msgs` hands to the rest of the chunk. -/
theorem C7_cache_idempotent_write_through
    (env : Env) (path meth : String) (cache : EmailHashCache) (i j : Nat) (em : EmailMsg)
    (r : ChunkRec) (c' : EmailHashCache)
    (hem : em.fetchRaises = false)
    (hrun : process_one env path meth cache i j em = (some r, c')) :
    get_hash c' (msgCacheId em i j) path meth = some r.hash ∧
    (∀ (env' : Env) (i2 j2 : Nat) (em2 : EmailMsg),
      em2.fetchRaises = false →
      msgCacheId em2 i2 j2 = msgCacheId em i j →
      process_one env' path meth c' i2 j2 em2 =
        (some ⟨j2, msgCacheId em i j, r.hash, headerDSubject em2, headerDFrom em2,
          headerD em2.date, true⟩, c')) ∧
    (∀ rest : List (Nat × EmailMsg),
      process_msgs env path meth i cache ((j, em) :: rest) =
        ((r :: (process_msgs env path meth i c' rest).1),
          (process_msgs env path meth i c' rest).2)) := by
  have hfirst : get_hash c' (msgCacheId em i j) path meth = some r.hash := by
    unfold process_one at hrun
    rw [hem] at hrun
    simp only [Bool.false_eq_true, if_false] at hrun
    cases hget : get_hash cache (msgCacheId em i j) path meth with
    | some h =>
      rw [hget] at hrun
      simp only [Prod.mk.injEq, Option.some.injEq] at hrun
      obtain ⟨hr, hc⟩ := hrun
      rw [← hc, hget, ← hr]
    | none =>
      rw [hget] at hrun
      simp only [Prod.mk.injEq, Option.some.injEq] at hrun
      obtain ⟨hr, hc⟩ := hrun
      rw [← hc, ← hr]
      exact get_hash_set_hash cache _ _ path meth env.now
  refine ⟨hfirst, ?_, ?_⟩
  · intro env' i2 j2 em2 hem2 hmid
    unfold process_one
    rw [hem2]
    simp only [Bool.false_eq_true, if_false, hmid, hfirst]
  · intro rest
    conv_lhs => rw [process_msgs, hrun]

/-- Witness for C7: a concrete first computation on an empty cache; the
stored digest is found under the message's key triple afterwards. -/
theorem C7_cache_idempotent_write_through_witness :
    get_hash
      ⟨[⟨"<m@x>", "Message-ID: <m@x>\r\nSubject: s\r\nb", "mb", 0, "md5"⟩]⟩
      (msgCacheId { messageId := some "<m@x>", subject := some "s", body := some "b" } 0 7)
      "mb" "md5" =
      some (ChunkRec.hash ⟨7, "<m@x>", "Message-ID: <m@x>\r\nSubject: s\r\nb", "s",
        "(No Sender)", "", false⟩) :=
  (C7_cache_idempotent_write_through {} "mb" "md5" ⟨[]⟩ 0 7
    { messageId := some "<m@x>", subject := some "s", body := some "b" }
    ⟨7, "<m@x>", "Message-ID: <m@x>\r\nSubject: s\r\nb", "s", "(No Sender)", "", false⟩
    ⟨[⟨"<m@x>", "Message-ID: <m@x>\r\nSubject: s\r\nb", "mb", 0, "md5"⟩]⟩
    rfl (by decide)).1

/-- A raising store entry anywhere in the scanned list makes `scan_folder`'s
message loop raise, whatever the accumulator: there is no per-message
handler. -/
theorem buildMap_error_of_mem {dn meth : String} {j : Nat} {bad : EmailMsg}
    (hbad : bad.fetchRaises = true) :
    ∀ (l : List (Nat × EmailMsg)) (acc : List (String × List MsgRec)),
      (j, bad) ∈ l → buildMap dn meth acc l = .error () := by
  intro l
  induction l with
  | nil => intro acc h; exact absurd h (List.not_mem_nil _)
  | cons p rest ih =>
    intro acc hmem
    obtain ⟨k, em⟩ := p
    by_cases hf : em.fetchRaises = true
    · simp [buildMap, hf]
    · have hmem' : (j, bad) ∈ rest := by
        rcases List.mem_cons.mp hmem with heq | h
        · exfalso
          have : em = bad := (Prod.mk.injEq _ _ _ _ ▸ heq.symm).2
          rw [this] at hf
          exact hf hbad
        · exact h
      simp only [buildMap, hf, Bool.false_eq_true, if_false]
      cases hh : compute_email_hash em meth with
      | error e => rfl
      | ok h => exact ih _ hmem'

/-- C2 (amended): in the optimized scanner (`process_mailbox_chunk`) a
message-level exception is caught, the message alone is skipped and the chunk
continues — processing a list with a raising entry equals processing the list
without it, with all other messages keeping their indices.  In
`DuplicateEmailFinder.scan_folder`, however, there is no per-message handler:
a message-level exception is only caught by the folder-level handler, which
terminates the scan of that folder and returns no groups. -/
theorem C2_message_exception_isolation :
    (∀ (env : Env) (path meth : String) (i : Nat) (c : EmailHashCache)
       (l1 l2 : List (Nat × EmailMsg)) (j : Nat) (bad : EmailMsg),
      bad.fetchRaises = true →
      process_msgs env path meth i c (l1 ++ (j, bad) :: l2) =
        process_msgs env path meth i c (l1 ++ l2)) ∧
    (∀ (finder : Finder) (fo : Folder) (store : Mbox) (meth : String)
       (j : Nat) (bad : EmailMsg),
      bad.fetchRaises = true → (j, bad) ∈ store.msgs →
      (scan_folder finder fo store meth).2 = []) := by
  constructor
  · intro env path meth i c l1 l2 j bad hbad
    induction l1 generalizing c with
    | nil =>
      have hskip : process_one env path meth c i j bad = (none, c) := by
        simp [process_one, hbad]
      simp only [List.nil_append]
      conv_lhs => rw [process_msgs, hskip]
    | cons p rest ih =>
      obtain ⟨k, em⟩ := p
      simp only [List.cons_append]
      conv_lhs => rw [process_msgs]
      conv_rhs => rw [process_msgs]
      cases hone : process_one env path meth c i k em with
      | mk r? c' =>
        cases r? with
        | none => exact ih c'
        | some r => simp only [ih c']
  · intro finder fo store meth j bad hbad hmem
    unfold scan_folder
    by_cases ho : store.openRaises = true
    · simp [ho]
    · simp only [Bool.not_eq_true] at ho
      simp only [ho, Bool.false_eq_true, if_false]
      rw [buildMap_error_of_mem hbad store.msgs [] hmem]

/-- Witness for C2 at concrete inputs: the optimized chunk processor skips
the raising message between two good ones; `scan_folder` returns no groups
for a store containing a raising message. -/
theorem C2_message_exception_isolation_witness :
    (process_msgs {} "mb" "md5" 0 ⟨[]⟩ [(0, msgDupA), (1, msgBad), (2, msgDupB)] =
      process_msgs {} "mb" "md5" 0 ⟨[]⟩ [(0, msgDupA), (2, msgDupB)]) ∧
    (scan_folder ⟨[], none⟩ ⟨"p", "F"⟩ ⟨[(0, msgDupA), (1, msgBad)], false⟩ "strict").2
      = [] :=
  ⟨C2_message_exception_isolation.1 {} "mb" "md5" 0 ⟨[]⟩ [(0, msgDupA)] [(2, msgDupB)]
      1 msgBad rfl,
    C2_message_exception_isolation.2 ⟨[], none⟩ ⟨"p", "F"⟩
      ⟨[(0, msgDupA), (1, msgBad)], false⟩ "strict" 1 msgBad rfl (by decide)⟩

/-- C2 counterexample: in `scan_folder` a message-level exception does
terminate the scan.  With the third store entry raising, the scan of the
whole folder yields nothing, although the first two messages form a duplicate
group — which the same scan finds when the raising entry is absent.  Under
the claim, the raising message alone would have been skipped and the group
would have been found in both runs. -/
theorem C2_message_exception_isolation_counterexample :
    (scan_folder ⟨[], none⟩ ⟨"p", "F"⟩
        ⟨[(0, msgDupA), (1, msgDupB), (2, msgBad)], false⟩ "strict").2 = [] ∧
    (scan_folder ⟨[], none⟩ ⟨"p", "F"⟩
        ⟨[(0, msgDupA), (1, msgDupB)], false⟩ "strict").2.map
      (fun g => (g.count, g.messages.map (fun r => r.key))) = [(2, [0, 1])] :=
  ⟨rfl, rfl⟩

/-- C5 (amended): every group `scan_folder` materializes is `sortMessages` of
its scan-order bucket; whenever the bucket's sort keys are mutually
comparable (one timezone-awareness kind: all parsed dates aware, or all
naive/unparseable), that is the stable ascending sort by parsed date — a
permutation of the bucket, sorted by key, with tied keys keeping scan order —
and a missing or unparseable date carries the minimum key, sorting before
every parseable date.  (The model is a pure function of the store, so
repeated scans of unchanged input reproduce the ordering.)  When a group
mixes aware parsed dates with naive/unparseable ones the comparison raises
`TypeError`, `scan_folder` swallows it and the group keeps its scan order —
see the counterexample. -/
theorem C5_group_ordering :
    (∀ l : List MsgRec, SameKind l →
      List.Perm (sortMessages l) l ∧
      List.Sorted natKeyLe (sortMessages l) ∧
      (∀ k : Nat, (sortMessages l).filter (fun r => natKey r == k) =
        l.filter (fun r => natKey r == k))) ∧
    (∀ (a b : MsgRec), a.date = "" ∨ a.dateParse = .unparseable → natKey a ≤ natKey b) ∧
    (∀ (finder : Finder) (fo : Folder) (store : Mbox) (meth : String) (g : Group),
      g ∈ (scan_folder finder fo store meth).2 → ∃ ms, g.messages = sortMessages ms) := by
  refine ⟨?_, ?_, ?_⟩
  · intro l hsk
    rw [sortMessages_eq_pySort hsk]
    refine ⟨pySort_perm l, pySort_sorted l, ?_⟩
    intro k
    refine pySort_filter_stable _ ?_ l
    intro a b ha hb
    show natKey a ≤ natKey b
    have ha' : natKey a = k := beq_iff_eq.mp ha
    have hb' : natKey b = k := beq_iff_eq.mp hb
    rw [ha', hb']
  · intro a b h
    have ha : natKey a = 0 := by
      unfold natKey dateKey
      rcases h with h1 | h2
      · rw [if_pos h1]
      · by_cases hd : a.date = ""
        · rw [if_pos hd]
        · rw [if_neg hd, h2]
    rw [ha]
    exact Nat.zero_le _
  · intro finder fo store meth g hg
    obtain ⟨ms, h1, _, _⟩ := scan_group_shape hg
    exact ⟨ms, h1⟩

/-- Witness for C5 at a concrete two-record bucket whose dates are both
timezone-aware but out of order: the materialized order is sorted. -/
theorem C5_group_ordering_witness :
    List.Perm (sortMessages [recW1, recW2]) [recW1, recW2] ∧
    List.Sorted natKeyLe (sortMessages [recW1, recW2]) :=
  ⟨(C5_group_ordering.1 [recW1, recW2] (by decide)).1,
    (C5_group_ordering.1 [recW1, recW2] (by decide)).2.1⟩

/-- C5 counterexample: a group of two messages with one timezone-aware
parsed date (scanned first) and one unparseable date (scanned second).  The
unparseable member has the minimum sort key, so under the claim it would come
first; but comparing `datetime.min` (naive) with the aware date raises
`TypeError`, the swallowed exception abandons the sort, and the materialized
group keeps scan order — it is not sorted by the parsed-date key. -/
theorem C5_group_ordering_counterexample :
    (scan_folder ⟨[], none⟩ mixFolder mixStore "strict").2.map
        (fun g => g.messages.map (fun r => (r.key, dateKey r))) =
      [[(0, (true, 231)), (1, (false, 0))]] ∧
    ¬ List.Sorted natKeyLe
      (((scan_folder ⟨[], none⟩ mixFolder mixStore "strict").2.getD 0
        ⟨"", [], 0⟩).messages) :=
  ⟨rfl, by decide⟩

/-- C6: the six-message demo Inbox scanned under `strict` yields exactly two
duplicate groups, of sizes 3 (the picnic messages, keys 2-4) and 2 (the
team-meeting messages, keys 0-1), with 3 redundant messages; deleting groups
0 and 1 under keep-first reports 3 deletions and no errors. -/
theorem C6_demo_scenario :
    (scan_folder ⟨[], none⟩ demoFolder demoInbox "strict").2.map
      (fun g => g.count) = [3, 2] ∧
    (scan_folder ⟨[], none⟩ demoFolder demoInbox "strict").2.map
      (fun g => g.messages.map (fun r => r.key)) = [[2, 3, 4], [0, 1]] ∧
    totalRedundant (scan_folder ⟨[], none⟩ demoFolder demoInbox "strict").2 = 3 ∧
    (delete_duplicates (scan_folder ⟨[], none⟩ demoFolder demoInbox "strict").1
        demoInbox [0, 1]).map (fun d => (d.deleted_count, d.errors)) =
      .ok (3, []) :=
  ⟨rfl, rfl, rfl, rfl⟩

/-- Cancelling a common left part of a byte stream. -/
theorem string_append_cancel_left {a b c : String} (h : a ++ b = a ++ c) : b = c := by
  have hd := congrArg String.data h
  rw [String.data_append, String.data_append] at hd
  exact String.ext (List.append_cancel_left hd)

/-- Evaluation of `compute_email_hash` on the `headers` method. -/
theorem hash_headers_eval (m : EmailMsg) :
    compute_email_hash m "headers" =
      if headerD m.messageId ∈ demoIds then Except.ok (md5hex (headerD m.messageId))
      else .ok (md5hex (headerD m.messageId ++ "|" ++ headerD m.date ++ "|" ++
        headerD m.fromAddr ++ "|" ++ headerD m.subject)) := rfl

/-- Evaluation of `compute_email_hash` on the `subject-sender` method. -/
theorem hash_ss_eval (m : EmailMsg) :
    compute_email_hash m "subject-sender" =
      if headerD m.messageId ∈ demoIds then Except.ok (md5hex (headerD m.messageId))
      else .ok (md5hex (headerD m.subject ++ "|" ++ headerD m.fromAddr)) := rfl

/-- Evaluation of `compute_email_hash` on the `strict` method. -/
theorem hash_strict_eval (m : EmailMsg) :
    compute_email_hash m "strict" =
      if headerD m.messageId ∈ demoIds then Except.ok (md5hex (headerD m.messageId))
      else .ok (md5hex ((headerD m.messageId ++ "|" ++ headerD m.date ++ "|" ++
        headerD m.fromAddr ++ "|" ++ headerD m.subject) ++ strictBody m)) := rfl

/-- Evaluation of `compute_email_hash` on the `content` method. -/
theorem hash_content_eval (m : EmailMsg) :
    compute_email_hash m "content" =
      if headerD m.messageId ∈ demoIds then Except.ok (md5hex (headerD m.messageId))
      else
        match contentBody m with
        | none => Except.error ()
        | some b => Except.ok (md5hex b) := rfl

/-- C4 (amended): two messages agreeing on the Message-ID, Date, From and
Subject headers get equal digests under `headers` and `subject-sender`
(unconditionally — body bytes never enter those digests); agreeing further on
the whole body they get equal digests under every method; and their `strict`
and `content` digests differ provided the Message-ID is not one of the three
demo identifiers and the byte streams the digests actually cover differ —
the decoded text parts, non-text attachments being excluded, and the demo
override bypassing the body entirely (see the counterexample). -/
theorem C4_criterion_monotonicity (m1 m2 : EmailMsg)
    (hmid : m1.messageId = m2.messageId) (hsub : m1.subject = m2.subject)
    (hfrom : m1.fromAddr = m2.fromAddr) (hdate : m1.date = m2.date) :
    (compute_email_hash m1 "headers" = compute_email_hash m2 "headers" ∧
     compute_email_hash m1 "subject-sender" = compute_email_hash m2 "subject-sender") ∧
    (m1.multipart = m2.multipart → m1.parts = m2.parts → m1.body = m2.body →
      ∀ meth : String, compute_email_hash m1 meth = compute_email_hash m2 meth) ∧
    (headerD m1.messageId ∉ demoIds →
      (strictBody m1 ≠ strictBody m2 →
        compute_email_hash m1 "strict" ≠ compute_email_hash m2 "strict") ∧
      (∀ b1 b2 : String, contentBody m1 = some b1 → contentBody m2 = some b2 →
        b1 ≠ b2 →
        compute_email_hash m1 "content" ≠ compute_email_hash m2 "content")) := by
  refine ⟨⟨?_, ?_⟩, ?_, ?_⟩
  · rw [hash_headers_eval, hash_headers_eval, hmid, hsub, hfrom, hdate]
  · rw [hash_ss_eval, hash_ss_eval, hmid, hsub, hfrom]
  · intro hmp hparts hbody meth
    simp only [compute_email_hash, strictBody, contentBody]
    rw [hmid, hsub, hfrom, hdate, hmp, hparts, hbody]
  · intro hdm
    have hdm2 : headerD m2.messageId ∉ demoIds := by rw [← hmid]; exact hdm
    constructor
    · intro hneq heq
      rw [hash_strict_eval, hash_strict_eval, if_neg hdm, if_neg hdm2] at heq
      rw [hmid, hsub, hfrom, hdate] at heq
      have hs : md5hex ((headerD m2.messageId ++ "|" ++ headerD m2.date ++ "|" ++
          headerD m2.fromAddr ++ "|" ++ headerD m2.subject) ++ strictBody m1) =
          md5hex ((headerD m2.messageId ++ "|" ++ headerD m2.date ++ "|" ++
          headerD m2.fromAddr ++ "|" ++ headerD m2.subject) ++ strictBody m2) :=
        Except.ok.inj heq
      exact hneq (string_append_cancel_left hs)
    · intro b1 b2 hc1 hc2 hneq heq
      rw [hash_content_eval, hash_content_eval, if_neg hdm, if_neg hdm2,
        hc1, hc2] at heq
      exact hneq (Except.ok.inj heq)

/-- Witness for C4 at two concrete non-demo messages identical in all four
headers with differing single-part bodies: digests agree under `headers` and
`subject-sender` and differ under `strict` and `content`. -/
theorem C4_criterion_monotonicity_witness :
    (compute_email_hash c4W1 "headers" = compute_email_hash c4W2 "headers") ∧
    (compute_email_hash c4W1 "subject-sender" =
      compute_email_hash c4W2 "subject-sender") ∧
    (compute_email_hash c4W1 "strict" ≠ compute_email_hash c4W2 "strict") ∧
    (compute_email_hash c4W1 "content" ≠ compute_email_hash c4W2 "content") :=
  ⟨(C4_criterion_monotonicity c4W1 c4W2 rfl rfl rfl rfl).1.1,
   (C4_criterion_monotonicity c4W1 c4W2 rfl rfl rfl rfl).1.2,
   ((C4_criterion_monotonicity c4W1 c4W2 rfl rfl rfl rfl).2.2 (by decide)).1 (by decide),
   ((C4_criterion_monotonicity c4W1 c4W2 rfl rfl rfl rfl).2.2 (by decide)).2
     "body A" "body B" rfl rfl (by decide)⟩

/-- C4 counterexample, two prongs.  First: two messages identical in the four
headers — carrying a demo Message-ID — and differing in body bytes hash
equal under `strict` (and `content`), because the demo override bypasses the
body.  Second: two non-demo multipart messages identical except for the bytes
of a non-text attachment also hash equal under `strict` and `content`,
because only text parts are fed to the digest.  The claim asserts unequal
digests in both situations. -/
theorem C4_criterion_monotonicity_counterexample :
    (c4DemoA.messageId = c4DemoB.messageId ∧ c4DemoA.subject = c4DemoB.subject ∧
     c4DemoA.fromAddr = c4DemoB.fromAddr ∧ c4DemoA.date = c4DemoB.date ∧
     c4DemoA.body ≠ c4DemoB.body ∧
     compute_email_hash c4DemoA "strict" = compute_email_hash c4DemoB "strict" ∧
     compute_email_hash c4DemoA "content" = compute_email_hash c4DemoB "content") ∧
    (c4PartA.messageId = c4PartB.messageId ∧ c4PartA.date = c4PartB.date ∧
     c4PartA.parts ≠ c4PartB.parts ∧
     compute_email_hash c4PartA "strict" = compute_email_hash c4PartB "strict" ∧
     compute_email_hash c4PartA "content" = compute_email_hash c4PartB "content") :=
  ⟨⟨rfl, rfl, rfl, rfl, by decide, rfl, rfl⟩,
   ⟨rfl, rfl, by decide, rfl, rfl⟩⟩

/-- C1 (amended): for a scanned folder and selected valid group indices,
keep-first deletion attempts exactly the members other than each group's
first element (`dkeys` is precisely those members' keys), and when no
per-member deletion error occurs (distinct keys, all present) it deletes
exactly them — reporting `deleted_count = Σ (group size − 1)` with an empty
error list and removing exactly `dkeys` from the store; moreover the retained
first element carries the minimal parsed-date key whenever the group's sort
keys were mutually comparable during the scan's sort.  (When a group mixes
timezone-aware and naive/unparseable dates the sort was abandoned and the
retained first element is the first-scanned member, not necessarily the
earliest-dated one — see the counterexample.) -/
theorem C1_keep_first_deletion (finder f1 : Finder) (fo : Folder) (store : Mbox)
    (meth : String) (groups : List Group) (idxs : List Int) (dkeys : List Nat)
    (hscan : scan_folder finder fo store meth = (f1, groups))
    (hdk : dkeys = (idxs.map (fun i =>
      groupDeletionKeys (groups.getD i.toNat ⟨"", [], 0⟩))).foldl (fun a b => a ++ b) [])
    (hne : groups ≠ []) (hidx : idxs ≠ [])
    (hv : ∀ i ∈ idxs, 0 ≤ i ∧ i < (groups.length : Int))
    (hnd : dkeys.Nodup) (hp : ∀ k ∈ dkeys, store.hasKey k = true) :
    delete_duplicates f1 store idxs =
      .ok ⟨(idxs.map (fun i => (groups.getD i.toNat ⟨"", [], 0⟩).count - 1)).sum, [],
        true, ⟨store.msgs.filter (fun p => !(decide (p.1 ∈ dkeys))),
          store.openRaises⟩⟩ ∧
    (∀ i ∈ idxs, ∀ g : Group, groups.getD i.toNat ⟨"", [], 0⟩ = g →
      SameKind g.messages →
      ∀ h0, g.messages.head? = some h0 → ∀ r ∈ g.messages, natKey h0 ≤ natKey r) := by
  obtain ⟨hf1, ho⟩ := scan_success hscan hne
  have hgroups : (scan_folder finder fo store meth).2 = groups := by rw [hscan]
  have hgmem : ∀ i ∈ idxs, groups.getD i.toNat ⟨"", [], 0⟩ ∈ groups := by
    intro i hi
    have h1 := (hv i hi).1
    have h2 := (hv i hi).2
    have hlt : i.toNat < groups.length := by omega
    rw [List.getD_eq_getElem _ _ hlt]
    exact List.getElem_mem hlt
  constructor
  · have hcount : ∀ i ∈ idxs,
        (groupDeletionKeys (groups.getD i.toNat ⟨"", [], 0⟩)).length =
          (groups.getD i.toNat ⟨"", [], 0⟩).count - 1 := by
      intro i hi
      have hm2 : groups.getD i.toNat ⟨"", [], 0⟩ ∈ (scan_folder finder fo store meth).2 := by
        rw [hgroups]; exact hgmem i hi
      obtain ⟨ms, hms, hc, hlen⟩ := scan_group_shape hm2
      unfold groupDeletionKeys
      rw [List.length_map, List.length_drop, hc]
    have hsum : dkeys.length =
        (idxs.map (fun i => (groups.getD i.toNat ⟨"", [], 0⟩).count - 1)).sum := by
      rw [hdk, foldl_append_length]
      simp only [List.length_nil, Nat.zero_add, List.map_map]
      exact congrArg List.sum (List.map_congr_left (fun i hi => hcount i hi))
    rw [hf1]
    simp only [delete_duplicates]
    rw [if_neg (by simp [hne])]
    have hval : idxs.filter
        (fun i => decide (0 ≤ i ∧ i < ((groups.length : Nat) : Int))) = idxs :=
      List.filter_eq_self.mpr (fun i hi => decide_eq_true (hv i hi))
    have herr : idxs.filter
        (fun i => !decide (0 ≤ i ∧ i < ((groups.length : Nat) : Int))) = [] :=
      List.filter_eq_nil_iff.mpr (fun i hi => by
        simp only [Bool.not_eq_true', decide_eq_false_iff_not, Decidable.not_not]
        exact hv i hi)
    rw [hval, herr]
    rw [if_neg (by simp [hidx])]
    rw [if_neg (by rw [ho]; simp)]
    simp only [List.map_nil]
    rw [← hdk, deleteKeys_all_present dkeys store hnd hp, hsum]
    rfl
  · intro i hi g hgd hsk h0 hh0 r hr
    have hm2 : g ∈ (scan_folder finder fo store meth).2 := by
      rw [hgroups, ← hgd]; exact hgmem i hi
    obtain ⟨ms, hms, _, _⟩ := scan_group_shape hm2
    have hskms : SameKind ms :=
      SameKind.of_perm (sortMessages_perm ms).symm (hms ▸ hsk)
    have hsorted : List.Sorted natKeyLe g.messages := by
      rw [hms, sortMessages_eq_pySort hskms]
      exact pySort_sorted ms
    cases hgm : g.messages with
    | nil => rw [hgm] at hh0; simp at hh0
    | cons a t =>
      rw [hgm] at hh0
      simp only [List.head?_cons, Option.some.injEq] at hh0
      rw [hgm] at hsorted hr
      rcases List.mem_cons.mp hr with hra | hrt
      · rw [← hh0, hra]
      · rw [← hh0]
        exact (List.sorted_cons.mp hsorted).1 r hrt

/-- Witness for C1 at the demo Inbox: deleting groups 0 (picnic, keys 2-4,
sorted with key 2 first) and 1 (team, keys 0-1) removes keys 3, 4 and 1,
reporting 3 deletions and no errors. -/
theorem C1_keep_first_deletion_witness :
    delete_duplicates (scan_folder ⟨[], none⟩ demoFolder demoInbox "strict").1
        demoInbox [0, 1] =
      .ok ⟨3, [], true,
        ⟨demoInboxMsgs.filter (fun p => !(decide (p.1 ∈ ([3, 4, 1] : List Nat)))),
          false⟩⟩ :=
  (C1_keep_first_deletion ⟨[], none⟩
    (scan_folder ⟨[], none⟩ demoFolder demoInbox "strict").1 demoFolder demoInbox
    "strict" (scan_folder ⟨[], none⟩ demoFolder demoInbox "strict").2 [0, 1] [3, 4, 1]
    rfl (by decide) (by decide) (by decide) (by decide) (by decide) (by decide)).1

/-- C1 counterexample: the retained member need not be the earliest-dated
one.  In a group whose first-scanned member has a timezone-aware parsed date
and whose second member's date is unparseable (hence carries the minimum
timestamp, `datetime.min`), the date sort raised `TypeError` and was
abandoned, so keep-first retains the first-scanned member (key 0, the
parseable, later date) and deletes the member the claim designates (key 1,
the minimum-timestamp one): after `delete([0])` the store holds exactly
key 0. -/
theorem C1_keep_first_deletion_counterexample :
    ((scan_folder ⟨[], none⟩ mixFolder mixStore "strict").2.getD 0
        ⟨"", [], 0⟩).messages.map (fun r => (r.key, dateKey r)) =
      [(0, (true, 231)), (1, (false, 0))] ∧
    (delete_duplicates (scan_folder ⟨[], none⟩ mixFolder mixStore "strict").1 mixStore
        [0]).map (fun d => (d.deleted_count, d.errors, d.store.msgs.map Prod.fst)) =
      .ok (1, [], [0]) :=
  ⟨rfl, rfl⟩

end EmailDup
